import Mathlib

/-!
Shallow embedding of the polling / metric-derivation pipeline of the Kira
dashboard (`src/routes/+page.svelte`).  Numbers computed by the script are
modelled as exact integers / rationals; `Math.round` is modelled as
`fun q => Int.floor (q + 1/2)` (JavaScript rounds half toward positive
infinity).  Rust `Result` fields arriving over the Tauri bridge are
modelled as `Option` (the script only branches on `.Ok` truthiness).
-/

namespace Kira

/-- JavaScript `Math.round`: floor of `q + 1/2` (half rounds toward `+∞`). -/
def jround (q : ℚ) : ℤ := ⌊q + 1/2⌋

/-- One core's cumulative tick counters (`times` object of a CPU entry). -/
structure CpuTimes where
  user : ℤ
  nice : ℤ
  sys : ℤ
  idle : ℤ
  iowait : ℤ
  irq : ℤ
  softirq : ℤ
deriving DecidableEq, Repr

/-- One CPU entry of `perf.cpu.Ok` (aggregate at index 0, then cores). -/
structure CpuCore where
  name : String
  times : CpuTimes
  speed_mhz : Option ℤ
deriving DecidableEq, Repr

/-- `perf.memory.Ok`. -/
structure MemInfo where
  total_kb : ℤ
  available_kb : ℤ
deriving DecidableEq, Repr

/-- `perf.fps.Ok`; `flips` may be `null`. -/
structure FpsInfo where
  flips : Option ℤ
  timestamp_ms : ℤ
deriving DecidableEq, Repr

/-- The four `Result` fields of `get_performance_profile` that the poll
callback reads (`none` models an `Err`/missing field). -/
structure PerfSnapshot where
  memory : Option MemInfo
  uptime : Option ℚ
  cpu : Option (List CpuCore)
  fps : Option FpsInfo
deriving DecidableEq

/-- `curr.user + curr.nice + curr.sys + curr.idle + curr.iowait + curr.irq
+ curr.softirq` (sum of the seven tick fields, lines 148-149). -/
def ticksTotal (t : CpuTimes) : ℤ :=
  t.user + t.nice + t.sys + t.idle + t.iowait + t.irq + t.softirq

/-- `idle + iowait` (the idle part of a tick reading, lines 152 and 175). -/
def idlePart (t : CpuTimes) : ℤ := t.idle + t.iowait

/-- `Math.round(100 * (1 - (idleDelta / totalDelta)))` (lines 155 and 179). -/
def pctOf (totalDelta idleDelta : ℤ) : ℤ :=
  jround (100 * (1 - (idleDelta : ℚ) / (totalDelta : ℚ)))

/-- Aggregate CPU percentage update (lines 148-156): the new value when
`totalDelta > 0`, otherwise the previously displayed value `old`. -/
def cpuPctUpdate (p c : CpuTimes) (old : ℤ) : ℤ :=
  if 0 < ticksTotal c - ticksTotal p then
    pctOf (ticksTotal c - ticksTotal p) (idlePart c - idlePart p)
  else old

/-- Per-core usage value (lines 177-180): `u` starts at `0` and is only
replaced when `core_tot > 0`. -/
def corePctVal (p c : CpuTimes) : ℤ :=
  if 0 < ticksTotal c - ticksTotal p then
    pctOf (ticksTotal c - ticksTotal p) (idlePart c - idlePart p)
  else 0

/-- Fieldwise non-decreasing tick readings (the monotonicity invariant of
/proc/stat counters between two polls of the same device). -/
def TicksLE (p c : CpuTimes) : Prop :=
  p.user ≤ c.user ∧ p.nice ≤ c.nice ∧ p.sys ≤ c.sys ∧ p.idle ≤ c.idle ∧
  p.iowait ≤ c.iowait ∧ p.irq ≤ c.irq ∧ p.softirq ≤ c.softirq

instance (p c : CpuTimes) : Decidable (TicksLE p c) := by
  unfold TicksLE; infer_instance

/-- Digits at the front of a character list. -/
def leadingDigits (l : List Char) : List Char := l.takeWhile Char.isDigit

/-- Decimal value of a digit list. -/
def digitsToNat (l : List Char) : ℕ :=
  l.foldl (fun n c => 10 * n + (c.toNat - 48)) 0

/-- JavaScript `parseInt` restricted to what a core-name suffix can look
like: optional blanks, optional sign, then a decimal-digit prefix;
`none` models `NaN` (no digits). -/
def jsParseInt (s : String) : Option ℤ :=
  let l := s.data.dropWhile (fun c => c = ' ')
  match l with
  | '-' :: rest =>
      if leadingDigits rest = [] then none
      else some (-(digitsToNat (leadingDigits rest) : ℤ))
  | '+' :: rest =>
      if leadingDigits rest = [] then none
      else some ((digitsToNat (leadingDigits rest) : ℤ))
  | _ =>
      if leadingDigits l = [] then none
      else some ((digitsToNat (leadingDigits l) : ℤ))

/-- JavaScript `String.prototype.startsWith`: character-level prefix. -/
def jsStartsWith (s pre : String) : Bool := pre.data.isPrefixOf s.data

/-- `arr.push(v); arr.shift();` on a chart series: append at the back,
evict the front (oldest) element. -/
def pushShift (l : List ℤ) (v : ℤ) : List ℤ := (l ++ [v]).drop 1

/-- The three per-core display arrays updated by the core loop
(`coreUsages`, `coreSpeeds`, `dataCores`). -/
structure CoreAcc where
  coreUsages : List ℤ
  coreSpeeds : List ℤ
  dataCores : List (List ℤ)
deriving DecidableEq

/-- Writes performed for a matched core (lines 182-187). -/
def updCore (acc : CoreAcc) (idx : ℤ) (c p : CpuCore) : CoreAcc :=
  let u := corePctVal p.times c.times
  { coreUsages := acc.coreUsages.set idx.toNat u
    coreSpeeds := acc.coreSpeeds.set idx.toNat (c.speed_mhz.getD 0)
    dataCores := acc.dataCores.set idx.toNat
      (pushShift (acc.dataCores.getD idx.toNat []) u) }

/-- Body of the per-core loop (lines 159-189) for one current core `c`:
skip empty / non-`cpu` names, parse the index from the name suffix, skip
indices outside `0..7`, match the previous core **by name** via `find`,
and only if found update the three display arrays. -/
def processCore (lasts : List CpuCore) (acc : CoreAcc) (c : CpuCore) : CoreAcc :=
  if c.name = "" ∨ ¬ jsStartsWith c.name "cpu" then acc
  else
    match jsParseInt (c.name.drop 3) with
    | none => acc
    | some idx =>
      if idx < 0 ∨ 8 ≤ idx then acc
      else
        match lasts.find? (fun p => p.name == c.name) with
        | none => acc
        | some p => updCore acc idx c p

/-- The state variables read and written by the CPU block (lines 141-196). -/
structure CpuView where
  currentCpu : ℤ
  dataCpu : List ℤ
  coreUsages : List ℤ
  coreSpeeds : List ℤ
  dataCores : List (List ℤ)
  lastCpuData : Option (List CpuCore)
deriving DecidableEq

/-- CPU block of the poll callback (lines 141-196): guard on a non-empty
`Ok` list; with a non-empty previous reading derive the aggregate and the
per-core values; always replace `lastCpuData` and push `currentCpu`. -/
def cpuApply (v : CpuView) (oc : Option (List CpuCore)) : CpuView :=
  match oc with
  | none => v
  | some [] => v
  | some (c0 :: cs) =>
    let v1 :=
      match v.lastCpuData with
      | none => v
      | some [] => v
      | some (p0 :: ps) =>
        let agg := cpuPctUpdate p0.times c0.times v.currentCpu
        let acc := cs.foldl (processCore (p0 :: ps))
          ⟨v.coreUsages, v.coreSpeeds, v.dataCores⟩
        { v with
          currentCpu := agg, coreUsages := acc.coreUsages,
          coreSpeeds := acc.coreSpeeds, dataCores := acc.dataCores }
    { v1 with
      lastCpuData := some (c0 :: cs),
      dataCpu := pushShift v1.dataCpu v1.currentCpu }

/-- `Math.round(((total_kb - available_kb) / total_kb) * 100)` (line 124). -/
def memPct (m : MemInfo) : ℤ :=
  jround ((((m.total_kb - m.available_kb : ℤ) : ℚ) / ((m.total_kb : ℤ) : ℚ)) * 100)

/-- `` `${Math.round((total_kb - available_kb) / 1024)}MB` `` (line 125). -/
def memLabel (m : MemInfo) : String :=
  toString (jround (((m.total_kb - m.available_kb : ℤ) : ℚ) / 1024)) ++ "MB"

/-- The state variables read and written by the memory block. -/
structure MemView where
  currentMem : ℤ
  memStr : String
  dataMem : List ℤ
deriving DecidableEq

/-- Memory block of the poll callback (lines 122-129); runs for every `Ok`
reading, with no guard on `total_kb`. -/
def memApply (v : MemView) (om : Option MemInfo) : MemView :=
  match om with
  | none => v
  | some m =>
    { currentMem := memPct m, memStr := memLabel m,
      dataMem := pushShift v.dataMem (memPct m) }

/-- JavaScript numeric coercion of a possibly-`null` number (`null` → 0),
as performed by `>` and `-` in the FPS branch. -/
def jsNum (o : Option ℤ) : ℤ := o.getD 0

/-- New `currentFps` value (lines 200-208): with no previous reading the
old value is kept; if `flips` is non-null and strictly increased, divide
by the elapsed time when positive (else keep `old`); if `flips` is
strictly-equal (`===`) to the previous `flips`, 0; otherwise keep `old`. -/
def fpsVal (old : ℤ) (last : Option FpsInfo) (f : FpsInfo) : ℤ :=
  match last with
  | none => old
  | some lf =>
    if f.flips ≠ none ∧ jsNum lf.flips < jsNum f.flips then
      (if 0 < f.timestamp_ms - lf.timestamp_ms then
        jround ((((jsNum f.flips - jsNum lf.flips) * 1000 : ℤ) : ℚ) /
          ((f.timestamp_ms - lf.timestamp_ms : ℤ) : ℚ))
      else old)
    else if f.flips = lf.flips then 0
    else old

/-- The state variables read and written by the FPS block. -/
structure FpsView where
  currentFps : ℤ
  lastFpsData : Option FpsInfo
  dataFps : List ℤ
deriving DecidableEq

/-- FPS block of the poll callback (lines 198-214): compute the new value,
always replace `lastFpsData` and push the (possibly retained) value. -/
def fpsApply (v : FpsView) (of : Option FpsInfo) : FpsView :=
  match of with
  | none => v
  | some f =>
    let fps := fpsVal v.currentFps v.lastFpsData f
    { currentFps := fps, lastFpsData := some f,
      dataFps := pushShift v.dataFps fps }

/-- Truncation toward zero, as JavaScript `%` uses for its quotient. -/
def jsTrunc (q : ℚ) : ℤ := if 0 ≤ q then ⌊q⌋ else -⌊-q⌋

/-- JavaScript remainder `a % b` (sign of the dividend). -/
def jsMod (a b : ℚ) : ℚ := a - b * (jsTrunc (a / b) : ℚ)

/-- `String.padStart(2, '0')` on a rendered integer. -/
def pad2 (n : ℤ) : String :=
  let s := toString n
  if s.length < 2 then "0" ++ s else s

/-- Uptime rendering (lines 132-138). -/
def uptimeLabel (ut : ℚ) : String :=
  let days := ⌊ut / 86400⌋
  let hours := ⌊jsMod ut 86400 / 3600⌋
  let minutes := ⌊jsMod ut 3600 / 60⌋
  let seconds := ⌊jsMod ut 60⌋
  let base := toString hours ++ ":" ++ pad2 minutes ++ ":" ++ pad2 seconds
  if 0 < days then toString days ++ "d " ++ base else base

/-- Uptime block (lines 131-139); note `perf.uptime.Ok` is a number, so
the truthiness guard also skips a reading of exactly `0`. -/
def uptimeApply (old : String) (ou : Option ℚ) : String :=
  match ou with
  | none => old
  | some ut => if ut = 0 then old else uptimeLabel ut

/-- Top-package block (lines 115-118); the truthiness guard on
`topPkg.name` skips an empty name. -/
def topApply (old : String) (tp : Option String) : String :=
  match tp with
  | none => old
  | some n => if n = "" then old else n

/-- A device as returned by the Rust `get_devices` command. -/
structure RustDevice where
  serial : String
  model : Option String
deriving DecidableEq

/-- A device entry of the UI `devices` list (only the fields the script
later reads). -/
structure UiDevice where
  id : String
  name : String
deriving DecidableEq

/-- `{ id: d.serial, name: d.model || d.serial, ... }` (lines 232-238). -/
def toUiDevice (d : RustDevice) : UiDevice :=
  { id := d.serial
    name := match d.model with
      | none => d.serial
      | some m => if m = "" then d.serial else m }

/-- The script-level mutable state touched by the polling pipeline and by
`loadDevices`. -/
structure AppState where
  devices : List UiDevice
  selectedDevice : String
  loading : Bool
  error : String
  topPackageName : String
  currentCpu : ℤ
  currentMem : ℤ
  currentFps : ℤ
  memStr : String
  uptimeStr : String
  dataCpu : List ℤ
  dataMem : List ℤ
  dataFps : List ℤ
  coreUsages : List ℤ
  coreSpeeds : List ℤ
  dataCores : List (List ℤ)
  lastCpuData : Option (List CpuCore)
  lastFpsData : Option FpsInfo
deriving DecidableEq

def memView (s : AppState) : MemView := ⟨s.currentMem, s.memStr, s.dataMem⟩

def cpuView (s : AppState) : CpuView :=
  ⟨s.currentCpu, s.dataCpu, s.coreUsages, s.coreSpeeds, s.dataCores, s.lastCpuData⟩

def fpsView (s : AppState) : FpsView := ⟨s.currentFps, s.lastFpsData, s.dataFps⟩

def memUpdate (s : AppState) (om : Option MemInfo) : AppState :=
  let v := memApply (memView s) om
  { s with currentMem := v.currentMem, memStr := v.memStr, dataMem := v.dataMem }

def cpuUpdate (s : AppState) (oc : Option (List CpuCore)) : AppState :=
  let v := cpuApply (cpuView s) oc
  { s with
    currentCpu := v.currentCpu, dataCpu := v.dataCpu,
    coreUsages := v.coreUsages, coreSpeeds := v.coreSpeeds,
    dataCores := v.dataCores, lastCpuData := v.lastCpuData }

def fpsUpdate (s : AppState) (of : Option FpsInfo) : AppState :=
  let v := fpsApply (fpsView s) of
  { s with
    currentFps := v.currentFps, lastFpsData := v.lastFpsData,
    dataFps := v.dataFps }

def topUpdate (s : AppState) (tp : Option String) : AppState :=
  { s with topPackageName := topApply s.topPackageName tp }

def uptimeUpdate (s : AppState) (ou : Option ℚ) : AppState :=
  { s with uptimeStr := uptimeApply s.uptimeStr ou }

/-- One successful body of the `setInterval` callback (lines 115-214):
top package, then memory, uptime, CPU and FPS blocks in program order. -/
def pollStep (s : AppState) (tp : Option String) (perf : PerfSnapshot) : AppState :=
  fpsUpdate (cpuUpdate (uptimeUpdate (memUpdate (topUpdate s tp) perf.memory)
    perf.uptime) perf.cpu) perf.fps

/-- `loadDevices` (lines 225-250), success path: replace the device list
when the Rust call returned a non-empty one and select the first entry.
It never touches `lastCpuData` / `lastFpsData`. -/
def loadDevices (s : AppState) (rust : List RustDevice) : AppState :=
  let s1 := { s with loading := true, error := "" }
  let s2 := if 0 < rust.length then { s1 with devices := rust.map toUiDevice } else s1
  let s3 := match s2.devices with
            | [] => s2
            | d :: _ => { s2 with selectedDevice := d.id }
  { s3 with loading := false }

/-- Initial `dataCpu` (line 24): `Array(40).fill(0)`. -/
def dataCpu0 : List ℤ := List.replicate 40 0

/-- Initial `dataMem` (line 25). -/
def dataMem0 : List ℤ := List.replicate 40 0

/-- Initial `dataFps` (line 26). -/
def dataFps0 : List ℤ := List.replicate 40 0

/-- Initial `dataCores` (line 28): 8 independent series of 25 zeros. -/
def dataCores0 : List (List ℤ) := List.replicate 8 (List.replicate 25 0)

/-- Events driving the poll scheduler: a cadence tick of the
`setInterval` timer, completion of an in-flight fetch (the `finally`
block, `ok` telling success from failure), and session changes. -/
inductive PollEv where
  | tick
  | complete (ok : Bool)
  | setDevice (d : String)
  | setTauri (b : Bool)
deriving DecidableEq

/-- Scheduler state: the `isPolling` single-flight flag plus the session
guards of line 112, and a count of fetches currently in flight (a ghost
variable: the code itself holds no such counter). -/
structure SchedState where
  isTauri : Bool
  selectedDevice : String
  isPolling : Bool
  inFlight : ℕ
deriving DecidableEq

/-- One scheduler transition.  A tick fires only when Tauri is available,
a device is selected and no fetch is in flight (line 112); otherwise it
is dropped.  Completion always clears the flag (the `finally` of
line 218-220 runs on success and on failure alike). -/
def schedStep (s : SchedState) : PollEv → SchedState
  | .tick =>
      if s.isTauri = true ∧ s.selectedDevice ≠ "" ∧ s.isPolling = false then
        { s with isPolling := true, inFlight := s.inFlight + 1 }
      else s
  | .complete _ => { s with isPolling := false, inFlight := s.inFlight - 1 }
  | .setDevice d => { s with selectedDevice := d }
  | .setTauri b => { s with isTauri := b }

/-- Run the scheduler over a sequence of events. -/
def schedRun (s : SchedState) (evs : List PollEv) : SchedState :=
  evs.foldl schedStep s

/-- The in-flight count mirrors the `isPolling` flag. -/
abbrev SchedInv (s : SchedState) : Prop :=
  s.inFlight = if s.isPolling then 1 else 0

/-- Division that is only defined for a non-zero divisor; `none` marks
the readings on which the JavaScript expression is not a finite number. -/
def checkedDiv (a b : ℚ) : Option ℚ := if b = 0 then none else some (a / b)

/-- The memory percentage with its division checked: `none` exactly when
`total_kb = 0`. -/
def memPctChecked (m : MemInfo) : Option ℤ :=
  (checkedDiv ((m.total_kb - m.available_kb : ℤ) : ℚ) ((m.total_kb : ℤ) : ℚ)).map
    (fun q => jround (q * 100))

/-- Previous aggregate ticks of Scenario A (seven fields summing to 400). -/
def scenAprev : CpuTimes := ⟨100, 0, 100, 200, 0, 0, 0⟩

/-- Current aggregate ticks of Scenario A (seven fields summing to 460). -/
def scenAcurr : CpuTimes := ⟨150, 0, 100, 210, 0, 0, 0⟩

/-- Non-monotone previous reading used to exhibit the missing clamp. -/
def cexPrev : CpuTimes := ⟨10, 0, 0, 0, 0, 0, 0⟩

/-- Non-monotone current reading: `user` decreased, `idle` increased, so
`totalDelta = 5 > 0` while `idleDelta = 15`. -/
def cexCurr : CpuTimes := ⟨0, 0, 0, 15, 0, 0, 0⟩

/-- Tick reading reused wherever two polls see identical counters. -/
def tSame : CpuTimes := ⟨100, 0, 0, 200, 0, 0, 0⟩

/-- Aggregate reading of device A (name `cpu`, totals 3000). -/
def ticksA : CpuTimes := ⟨1000, 0, 0, 2000, 0, 0, 0⟩

/-- First aggregate reading of device B (totals 3100). -/
def ticksB : CpuTimes := ⟨1050, 0, 0, 2050, 0, 0, 0⟩

def coreA : CpuCore := ⟨"cpu", ticksA, none⟩

def coreB : CpuCore := ⟨"cpu", ticksB, none⟩

/-- A per-core display state in which core 1 currently shows 37%. -/
def accPrev : CoreAcc := ⟨[0, 37, 0, 0, 0, 0, 0, 0], List.replicate 8 0, dataCores0⟩

/-- Core 1 seen with the same ticks as before (`core_tot = 0`). -/
def coreSame1 : CpuCore := ⟨"cpu1", tSame, none⟩

/-- Core 1 appearing with a clock speed but absent from the previous
snapshot. -/
def coreNew1 : CpuCore := ⟨"cpu1", tSame, some 1800⟩

/-- The script state right after `onMount`, with all display defaults. -/
def initState : AppState :=
  ⟨[⟨"1", "Poco F5"⟩], "", true, "", "Browser", 0, 0, 0, "0MB", "0:00:00:00",
    dataCpu0, dataMem0, dataFps0, List.replicate 8 0, List.replicate 8 0,
    dataCores0, none, none⟩

/-- Session on device A after one CPU poll stored A's counters. -/
def stateOnA : AppState :=
  { initState with selectedDevice := "A", lastCpuData := some [coreA] }

/-- The state after `loadDevices` switches the session to device B. -/
def stateSwitched : AppState := loadDevices stateOnA [⟨"B", none⟩]

/-- First performance snapshot fetched from device B. -/
def perfB : PerfSnapshot := ⟨none, none, some [coreB], none⟩

/-! ## Helper lemmas -/

theorem jround_bounds {x : ℚ} (h0 : 0 ≤ x) (h1 : x ≤ 100) :
    0 ≤ jround x ∧ jround x ≤ 100 := by
  unfold jround
  constructor
  · exact Int.le_floor.mpr (by push_cast; linarith)
  · have h : (⌊x + 1/2⌋ : ℤ) < 101 := Int.floor_lt.mpr (by push_cast; linarith)
    omega

theorem cpuPctUpdate_bounds {p c : CpuTimes} {old : ℤ} (hm : TicksLE p c)
    (h0 : 0 ≤ old) (h1 : old ≤ 100) :
    0 ≤ cpuPctUpdate p c old ∧ cpuPctUpdate p c old ≤ 100 := by
  unfold cpuPctUpdate
  split
  case isTrue htd =>
    unfold TicksLE at hm
    obtain ⟨m1, m2, m3, m4, m5, m6, m7⟩ := hm
    have hidl : (0:ℤ) ≤ idlePart c - idlePart p := by
      simp only [idlePart]; omega
    have hle : idlePart c - idlePart p ≤ ticksTotal c - ticksTotal p := by
      simp only [idlePart, ticksTotal]; omega
    unfold pctOf
    have htdQ : (0:ℚ) < ((ticksTotal c - ticksTotal p : ℤ) : ℚ) := by exact_mod_cast htd
    have hidlQ : (0:ℚ) ≤ ((idlePart c - idlePart p : ℤ) : ℚ) := by exact_mod_cast hidl
    have hleQ : ((idlePart c - idlePart p : ℤ) : ℚ) ≤ ((ticksTotal c - ticksTotal p : ℤ) : ℚ) := by
      exact_mod_cast hle
    have hq1 : ((idlePart c - idlePart p : ℤ) : ℚ) / ((ticksTotal c - ticksTotal p : ℤ) : ℚ) ≤ 1 :=
      (div_le_one htdQ).mpr hleQ
    have hq0 : (0:ℚ) ≤ ((idlePart c - idlePart p : ℤ) : ℚ) / ((ticksTotal c - ticksTotal p : ℤ) : ℚ) :=
      div_nonneg hidlQ htdQ.le
    exact jround_bounds (by linarith) (by linarith)
  case isFalse _ => exact ⟨h0, h1⟩

theorem pushShift_length (l : List ℤ) (v : ℤ) : (pushShift l v).length = l.length := by
  simp [pushShift]

theorem pushShift_foldl (vs : List ℤ) : ∀ init : List ℤ,
    vs.foldl pushShift init = (init ++ vs).drop vs.length := by
  induction vs with
  | nil => intro init; simp
  | cons v vs ih =>
    intro init
    rw [List.foldl_cons, ih]
    show ((init ++ [v]).drop 1 ++ vs).drop vs.length = (init ++ v :: vs).drop (v :: vs).length
    rw [← List.drop_append_of_le_length (by simp), List.drop_drop]
    have h1 : init ++ [v] ++ vs = init ++ v :: vs := by simp
    have h2 : (v :: vs).length = 1 + vs.length := by simp [Nat.add_comm]
    rw [h1, h2]

theorem pushShift_foldl_full (init vs : List ℤ) (C : ℕ) (hinit : init.length = C)
    (hvs : C ≤ vs.length) : vs.foldl pushShift init = vs.drop (vs.length - C) := by
  rw [pushShift_foldl]
  rw [List.drop_append_eq_append_drop]
  rw [hinit]
  rw [List.drop_eq_nil_of_le (by omega)]
  simp

theorem schedStep_inv {s : SchedState} (e : PollEv) (h : SchedInv s) :
    SchedInv (schedStep s e) := by
  cases e with
  | tick =>
    simp only [SchedInv, schedStep] at h ⊢
    split
    next hc =>
      rw [hc.2.2] at h
      simp at h
      simp [h]
    next => exact h
  | complete ok =>
    simp only [SchedInv, schedStep] at h ⊢
    split at h <;> simp [h]
  | setDevice d => exact h
  | setTauri b => exact h

theorem schedRun_inv (evs : List PollEv) :
    ∀ s : SchedState, SchedInv s → SchedInv (schedRun s evs) := by
  induction evs with
  | nil => intro s h; exact h
  | cons e evs ih => intro s h; exact ih _ (schedStep_inv e h)

theorem processCore_find_eq (l1 l2 : List CpuCore) (acc : CoreAcc) (c : CpuCore)
    (h : l1.find? (fun p => p.name == c.name) = l2.find? (fun p => p.name == c.name)) :
    processCore l1 acc c = processCore l2 acc c := by
  unfold processCore
  rw [h]

theorem processCore_absent (lasts : List CpuCore) (acc : CoreAcc) (c : CpuCore)
    (h : lasts.find? (fun p => p.name == c.name) = none) :
    processCore lasts acc c = acc := by
  unfold processCore
  rw [h]
  split
  · rfl
  · split
    · rfl
    · split <;> rfl

theorem processCore_range (lasts : List CpuCore) (acc : CoreAcc) (c : CpuCore) (idx : ℤ)
    (hp : jsParseInt (c.name.drop 3) = some idx) (hr : idx < 0 ∨ 8 ≤ idx) :
    processCore lasts acc c = acc := by
  simp [processCore, hp, hr]

theorem processCore_found (lasts : List CpuCore) (acc : CoreAcc) (c : CpuCore) (idx : ℤ)
    (prev : CpuCore)
    (hn : ¬ (c.name = "" ∨ ¬ jsStartsWith c.name "cpu"))
    (hp : jsParseInt (c.name.drop 3) = some idx)
    (hr : ¬ (idx < 0 ∨ 8 ≤ idx))
    (hf : lasts.find? (fun p => p.name == c.name) = some prev) :
    processCore lasts acc c = updCore acc idx c prev := by
  simp only [processCore, hp, hf]
  rw [if_neg hn, if_neg hr]

theorem fpsVal_incr (old : ℤ) (lf f : FpsInfo) (pf cf : ℤ)
    (hl : lf.flips = some pf) (hf : f.flips = some cf) (hlt : pf < cf)
    (ht : 0 < f.timestamp_ms - lf.timestamp_ms) :
    fpsVal old (some lf) f =
      jround ((((cf - pf) * 1000 : ℤ) : ℚ) / ((f.timestamp_ms - lf.timestamp_ms : ℤ) : ℚ)) := by
  have hc : f.flips ≠ none ∧ jsNum lf.flips < jsNum f.flips := by
    simp [hf, hl, jsNum, hlt]
  simp only [fpsVal]
  rw [if_pos hc, if_pos ht, hf, hl]
  rfl

theorem fpsVal_incr_noTime (old : ℤ) (lf f : FpsInfo) (pf cf : ℤ)
    (hl : lf.flips = some pf) (hf : f.flips = some cf) (hlt : pf < cf)
    (ht : f.timestamp_ms - lf.timestamp_ms ≤ 0) :
    fpsVal old (some lf) f = old := by
  have hc : f.flips ≠ none ∧ jsNum lf.flips < jsNum f.flips := by
    simp [hf, hl, jsNum, hlt]
  simp only [fpsVal]
  rw [if_pos hc, if_neg (by omega)]

theorem fpsVal_same (old : ℤ) (lf f : FpsInfo) (pf cf : ℤ)
    (hl : lf.flips = some pf) (hf : f.flips = some cf) (heq : cf = pf) :
    fpsVal old (some lf) f = 0 := by
  simp only [fpsVal]
  rw [if_neg (by simp [hf, hl, jsNum, heq]), if_pos (by rw [hf, hl, heq])]

theorem fpsVal_decr (old : ℤ) (lf f : FpsInfo) (pf cf : ℤ)
    (hl : lf.flips = some pf) (hf : f.flips = some cf) (hlt : cf < pf) :
    fpsVal old (some lf) f = old := by
  simp only [fpsVal]
  rw [if_neg (by simp [hf, hl, jsNum]; omega), if_neg (by simp [hf, hl]; omega)]

theorem loadDevices_keeps_counters (s : AppState) (rust : List RustDevice) :
    (loadDevices s rust).lastCpuData = s.lastCpuData ∧
    (loadDevices s rust).lastFpsData = s.lastFpsData := by
  simp only [loadDevices]
  constructor <;> (split <;> split <;> rfl)

theorem cpuApply_agg (v : CpuView) (c0 p0 : CpuCore) (cs ps : List CpuCore)
    (h : v.lastCpuData = some (p0 :: ps)) :
    (cpuApply v (some (c0 :: cs))).currentCpu = cpuPctUpdate p0.times c0.times v.currentCpu := by
  simp only [cpuApply, h]

/-! ## Claim theorems -/

/-- Claim C1, counterexample: for the pair `(cexPrev, cexCurr)` the total
delta is positive (5) but the computed percentage is `-200`, which is not
the claimed round value clamped to `[0,100]` (the clamp would give `0`):
the code applies no clamp. -/
theorem c1_counterexample :
    0 < ticksTotal cexCurr - ticksTotal cexPrev ∧
    cpuPctUpdate cexPrev cexCurr 0 = -200 ∧
    cpuPctUpdate cexPrev cexCurr 0 ≠
      max 0 (min 100 (jround (100 * (1 - ((idlePart cexCurr - idlePart cexPrev : ℤ) : ℚ) /
        ((ticksTotal cexCurr - ticksTotal cexPrev : ℤ) : ℚ))))) := by
  have h2 : cpuPctUpdate cexPrev cexCurr 0 = -200 := by
    norm_num [cpuPctUpdate, ticksTotal, idlePart, pctOf, jround, cexPrev, cexCurr]
  have h3 : jround (100 * (1 - ((idlePart cexCurr - idlePart cexPrev : ℤ) : ℚ) /
      ((ticksTotal cexCurr - ticksTotal cexPrev : ℤ) : ℚ))) = -200 := by
    norm_num [ticksTotal, idlePart, jround, cexPrev, cexCurr]
  refine ⟨by decide, h2, ?_⟩
  rw [h2, h3]
  decide

/-- Claim C1 (amended): when `totalDelta > 0` the displayed aggregate CPU
percentage equals `round(100 * (1 - idleDelta/totalDelta))` with **no**
clamping applied; for fieldwise non-decreasing readings (and a prior
displayed value in range) the result automatically lies in `[0,100]`, so
the clamp would be a no-op there; Scenario A yields 83. -/
theorem c1_amended :
    (∀ (p c : CpuTimes) (old : ℤ), 0 < ticksTotal c - ticksTotal p →
      cpuPctUpdate p c old = jround (100 * (1 - ((idlePart c - idlePart p : ℤ) : ℚ) /
        ((ticksTotal c - ticksTotal p : ℤ) : ℚ)))) ∧
    (∀ (p c : CpuTimes) (old : ℤ), TicksLE p c → 0 ≤ old → old ≤ 100 →
      0 ≤ cpuPctUpdate p c old ∧ cpuPctUpdate p c old ≤ 100) ∧
    cpuPctUpdate scenAprev scenAcurr 0 = 83 := by
  refine ⟨?_, ?_, ?_⟩
  · intro p c old h
    unfold cpuPctUpdate pctOf
    rw [if_pos h]
  · intro p c old hm h0 h1
    exact cpuPctUpdate_bounds hm h0 h1
  · norm_num [cpuPctUpdate, ticksTotal, idlePart, pctOf, jround, scenAprev, scenAcurr]

/-- Claim C1, witness: the amended theorem applied at Scenario A. -/
theorem c1_witness :
    0 < ticksTotal scenAcurr - ticksTotal scenAprev ∧
    cpuPctUpdate scenAprev scenAcurr 0 =
      jround (100 * (1 - ((idlePart scenAcurr - idlePart scenAprev : ℤ) : ℚ) /
        ((ticksTotal scenAcurr - ticksTotal scenAprev : ℤ) : ℚ))) :=
  ⟨by decide, c1_amended.1 scenAprev scenAcurr 0 (by decide)⟩

/-- Claim C2 (code-bug evidence): `loadDevices` never clears the stored
previous snapshot (`lastCpuData` / `lastFpsData`), so after a switch from
device A to device B the first poll on B diffs B's counters against A's:
with A at totals 3000 / idle 2000 and B at totals 3100 / idle 2050 the
first poll on B displays a 50% CPU delta instead of being baseline-only. -/
theorem c2_code_behavior :
    (∀ (s : AppState) (rust : List RustDevice),
      (loadDevices s rust).lastCpuData = s.lastCpuData ∧
      (loadDevices s rust).lastFpsData = s.lastFpsData) ∧
    stateSwitched.selectedDevice = "B" ∧
    stateSwitched.lastCpuData = some [coreA] ∧
    stateOnA.currentCpu = 0 ∧
    (pollStep stateSwitched none perfB).currentCpu = 50 := by
  refine ⟨loadDevices_keeps_counters, rfl, rfl, rfl, ?_⟩
  have h : (pollStep stateSwitched none perfB).currentCpu = cpuPctUpdate ticksA ticksB 0 := rfl
  rw [h]
  norm_num [cpuPctUpdate, ticksTotal, idlePart, pctOf, jround, ticksA, ticksB]

/-- Claim C3: single-flight polling.  The in-flight count always mirrors
the `isPolling` flag (so it never exceeds 1 along any event trace); a
tick arriving while a fetch is in flight, while Tauri is unavailable or
while no device is selected is a strict no-op (dropped, not queued);
completion — successful or not — always clears the flag, and the next
tick of an active session starts a new fetch. -/
theorem c3_single_flight :
    (∀ (s : SchedState) (evs : List PollEv), SchedInv s → SchedInv (schedRun s evs)) ∧
    (∀ (s : SchedState) (evs : List PollEv), SchedInv s → (schedRun s evs).inFlight ≤ 1) ∧
    (∀ s : SchedState, s.isPolling = true → schedStep s PollEv.tick = s) ∧
    (∀ s : SchedState, s.isTauri = false → schedStep s PollEv.tick = s) ∧
    (∀ s : SchedState, s.selectedDevice = "" → schedStep s PollEv.tick = s) ∧
    (∀ (s : SchedState) (ok : Bool), (schedStep s (PollEv.complete ok)).isPolling = false) ∧
    (∀ (s : SchedState) (ok : Bool), s.isTauri = true → s.selectedDevice ≠ "" →
      (schedStep (schedStep s (PollEv.complete ok)) PollEv.tick).isPolling = true) := by
  refine ⟨fun s evs h => schedRun_inv evs s h, ?_, ?_, ?_, ?_, ?_, ?_⟩
  · intro s evs h
    have hinv := schedRun_inv evs s h
    simp only [SchedInv] at hinv
    rw [hinv]
    split <;> omega
  · intro s h
    simp [schedStep, h]
  · intro s h
    simp [schedStep, h]
  · intro s h
    simp [schedStep, h]
  · intro s ok
    simp [schedStep]
  · intro s ok h1 h2
    simp [schedStep, h1, h2]

/-- Claim C3, witness: a trace with a tick arriving mid-fetch keeps the
in-flight count at most 1. -/
theorem c3_witness :
    SchedInv (schedRun ⟨true, "dev", false, 0⟩
      [PollEv.tick, PollEv.tick, PollEv.complete true, PollEv.tick]) ∧
    (schedRun ⟨true, "dev", false, 0⟩
      [PollEv.tick, PollEv.tick, PollEv.complete true, PollEv.tick]).inFlight ≤ 1 :=
  ⟨c3_single_flight.1 _ _ (by decide), c3_single_flight.2.1 _ _ (by decide)⟩

/-- Claim C4: the series are fixed-capacity FIFO rings: the aggregate
CPU / memory / FPS series start with length 40 and each of the 8 per-core
series with length 25; a push (`push` then `shift`) preserves the length
exactly; folding pushes over a buffer leaves the last `length` elements
of `init ++ vs`, so after at least `C` pushes the contents are exactly
the `C` most recently pushed values in arrival order. -/
theorem c4_ring_buffer :
    dataCpu0.length = 40 ∧ dataMem0.length = 40 ∧ dataFps0.length = 40 ∧
    dataCores0.length = 8 ∧ (∀ l ∈ dataCores0, l.length = 25) ∧
    (∀ (l : List ℤ) (v : ℤ), (pushShift l v).length = l.length) ∧
    (∀ (init vs : List ℤ), vs.foldl pushShift init = (init ++ vs).drop vs.length) ∧
    (∀ (init vs : List ℤ) (C : ℕ), init.length = C → C ≤ vs.length →
      vs.foldl pushShift init = vs.drop (vs.length - C)) := by
  refine ⟨by decide, by decide, by decide, by decide, ?_, pushShift_length,
    (fun init vs => pushShift_foldl vs init), pushShift_foldl_full⟩
  · intro l hl
    simp only [dataCores0] at hl
    rw [List.eq_of_mem_replicate hl]
    decide

/-- Claim C4, witness: a capacity-3 buffer after 4 pushes holds the last
3 pushed values in order. -/
theorem c4_witness :
    (List.replicate 3 (0:ℤ)).length = 3 ∧
    [(1:ℤ), 2, 3, 4].foldl pushShift (List.replicate 3 0) =
      [(1:ℤ), 2, 3, 4].drop ([(1:ℤ), 2, 3, 4].length - 3) :=
  ⟨by decide, c4_ring_buffer.2.2.2.2.2.2.2 (List.replicate 3 0) [1, 2, 3, 4] 3
    (by decide) (by decide)⟩

/-- Claim C5, counterexample: per-core, when `core_tot ≤ 0` the displayed
percentage is **not** retained: core 1 previously showed 37%, the new
poll sees identical ticks (`core_tot = 0`), and the code overwrites the
display with 0. -/
theorem c5_counterexample :
    ticksTotal coreSame1.times - ticksTotal coreSame1.times ≤ 0 ∧
    accPrev.coreUsages.getD 1 0 = 37 ∧
    (processCore [⟨"cpu", tSame, none⟩, coreSame1] accPrev coreSame1).coreUsages.getD 1 0 = 0 ∧
    (processCore [⟨"cpu", tSame, none⟩, coreSame1] accPrev coreSame1).coreUsages.getD 1 0 ≠
      accPrev.coreUsages.getD 1 0 := by
  decide

/-- Claim C5 (amended): when `totalDelta ≤ 0` the **aggregate** percentage
is retained unchanged, but a **per-core** reading with `core_tot ≤ 0` sets
that core's percentage to 0 (the computed `u` defaults to 0 and is written
unconditionally for a matched core); in both paths the division is only
taken when the denominator is strictly positive. -/
theorem c5_amended :
    (∀ (p c : CpuTimes) (old : ℤ), ticksTotal c - ticksTotal p ≤ 0 →
      cpuPctUpdate p c old = old) ∧
    (∀ p c : CpuTimes, ticksTotal c - ticksTotal p ≤ 0 → corePctVal p c = 0) ∧
    (∀ (acc : CoreAcc) (idx : ℤ) (c p : CpuCore),
      (updCore acc idx c p).coreUsages =
        acc.coreUsages.set idx.toNat (corePctVal p.times c.times)) ∧
    (∀ (p c : CpuTimes) (old : ℤ), 0 < ticksTotal c - ticksTotal p →
      cpuPctUpdate p c old = pctOf (ticksTotal c - ticksTotal p) (idlePart c - idlePart p)) := by
  refine ⟨?_, ?_, ?_, ?_⟩
  · intro p c old h
    unfold cpuPctUpdate
    rw [if_neg (by omega)]
  · intro p c h
    unfold corePctVal
    rw [if_neg (by omega)]
  · intro acc idx c p
    rfl
  · intro p c old h
    unfold cpuPctUpdate
    rw [if_pos h]

/-- Claim C5, witness: identical consecutive aggregate ticks retain the
displayed 42%, and the per-core value under the same readings is 0. -/
theorem c5_witness :
    cpuPctUpdate tSame tSame 42 = 42 ∧ corePctVal tSame tSame = 0 :=
  ⟨c5_amended.1 tSame tSame 42 (by decide), c5_amended.2.1 tSame tSame (by decide)⟩

/-- Claim C6, counterexample: core `cpu1` is present in the current
snapshot with clock speed 1800 MHz but absent from the previous one; the
code skips the core entirely, so its clock speed is **not** recorded
(`coreSpeeds` still shows the default 0). -/
theorem c6_counterexample :
    List.find? (fun p => p.name == coreNew1.name) [coreA] = none ∧
    coreNew1.speed_mhz = some 1800 ∧
    processCore [coreA] accPrev coreNew1 = accPrev ∧
    (processCore [coreA] accPrev coreNew1).coreSpeeds.getD 1 0 = 0 := by
  decide

/-- Claim C6 (amended): per-core matching is by name identity (the result
of `processCore` depends on the previous list only through `find` by
name, hence not on position); a core absent from the previous snapshot is
skipped **entirely** for the tick — neither percentage nor clock speed is
recorded; indices parsed outside `0..7` are silently ignored. -/
theorem c6_amended :
    (∀ (l1 l2 : List CpuCore) (acc : CoreAcc) (c : CpuCore),
      l1.find? (fun p => p.name == c.name) = l2.find? (fun p => p.name == c.name) →
      processCore l1 acc c = processCore l2 acc c) ∧
    (∀ (lasts : List CpuCore) (acc : CoreAcc) (c : CpuCore),
      lasts.find? (fun p => p.name == c.name) = none → processCore lasts acc c = acc) ∧
    (∀ (lasts : List CpuCore) (acc : CoreAcc) (c : CpuCore) (idx : ℤ),
      jsParseInt (c.name.drop 3) = some idx → idx < 0 ∨ 8 ≤ idx →
      processCore lasts acc c = acc) :=
  ⟨processCore_find_eq, processCore_absent, processCore_range⟩

/-- Claim C6, witness: a core named `cpu9` (index 9, outside `0..7`) is
ignored. -/
theorem c6_witness :
    processCore [coreA] accPrev ⟨"cpu9", tSame, none⟩ = accPrev :=
  c6_amended.2.2 [coreA] accPrev ⟨"cpu9", tSame, none⟩ 9 (by decide) (by decide)

/-- Claim C7: FPS derivation.  With a previous reading stored: strictly
increased flips and positive elapsed time give
`round(1000 * deltaFlips / deltaTime)`; increased flips with non-positive
elapsed time retain the previous value; unchanged flips give 0; decreased
flips retain the previous value.  Scenario B gives 30 and Scenario C
gives 0, and the block always stores the new reading and pushes the
resulting value. -/
theorem c7_fps :
    (∀ (old : ℤ) (lf f : FpsInfo) (pf cf : ℤ), lf.flips = some pf → f.flips = some cf →
      pf < cf → 0 < f.timestamp_ms - lf.timestamp_ms →
      fpsVal old (some lf) f = jround ((((cf - pf) * 1000 : ℤ) : ℚ) /
        ((f.timestamp_ms - lf.timestamp_ms : ℤ) : ℚ))) ∧
    (∀ (old : ℤ) (lf f : FpsInfo) (pf cf : ℤ), lf.flips = some pf → f.flips = some cf →
      pf < cf → f.timestamp_ms - lf.timestamp_ms ≤ 0 → fpsVal old (some lf) f = old) ∧
    (∀ (old : ℤ) (lf f : FpsInfo) (pf cf : ℤ), lf.flips = some pf → f.flips = some cf →
      cf = pf → fpsVal old (some lf) f = 0) ∧
    (∀ (old : ℤ) (lf f : FpsInfo) (pf cf : ℤ), lf.flips = some pf → f.flips = some cf →
      cf < pf → fpsVal old (some lf) f = old) ∧
    fpsVal 0 (some ⟨some 1000, 0⟩) ⟨some 1030, 1000⟩ = 30 ∧
    fpsVal 7 (some ⟨some 1000, 0⟩) ⟨some 1000, 500⟩ = 0 ∧
    (∀ (v : FpsView) (f : FpsInfo),
      (fpsApply v (some f)).currentFps = fpsVal v.currentFps v.lastFpsData f ∧
      (fpsApply v (some f)).lastFpsData = some f ∧
      (fpsApply v (some f)).dataFps =
        pushShift v.dataFps (fpsVal v.currentFps v.lastFpsData f)) := by
  refine ⟨fpsVal_incr, fpsVal_incr_noTime, fpsVal_same, fpsVal_decr, ?_, ?_, ?_⟩
  · norm_num [fpsVal, jsNum, jround]; simp
  · norm_num [fpsVal, jsNum, jround]
  · intro v f
    exact ⟨rfl, rfl, rfl⟩

/-- Claim C7, witness: Scenario B through the strict-increase branch. -/
theorem c7_witness :
    fpsVal 0 (some ⟨some 1000, 0⟩) ⟨some 1030, 1000⟩ =
      jround ((((1030 - 1000) * 1000 : ℤ) : ℚ) / ((1000 - 0 : ℤ) : ℚ)) :=
  c7_fps.1 0 ⟨some 1000, 0⟩ ⟨some 1030, 1000⟩ 1000 1030 rfl rfl (by decide) (by decide)

/-- Claim C8: field-level failures are independent.  For every snapshot,
each of the memory / CPU / FPS blocks transforms exactly its own state
components from exactly its own raw field (so an `Err` in one leaves that
metric's display and ring buffer untouched while the others update as if
alone); in particular with `memory: Err` the memory display and series
are unchanged. -/
theorem c8_field_independence :
    ∀ (s : AppState) (tp : Option String) (om : Option MemInfo) (u : Option ℚ)
      (oc : Option (List CpuCore)) (of : Option FpsInfo),
    memView (pollStep s tp ⟨om, u, oc, of⟩) = memApply (memView s) om ∧
    cpuView (pollStep s tp ⟨om, u, oc, of⟩) = cpuApply (cpuView s) oc ∧
    fpsView (pollStep s tp ⟨om, u, oc, of⟩) = fpsApply (fpsView s) of ∧
    memView (pollStep s tp ⟨none, u, oc, of⟩) = memView s ∧
    (pollStep s tp ⟨none, u, oc, of⟩).dataMem = s.dataMem := by
  intro s tp om u oc of
  exact ⟨rfl, rfl, rfl, rfl, rfl⟩

/-- Claim C9, counterexample: the used-memory label is computed with
`Math.round`, not integer division: 1536 used KB renders as `2MB`
(round of 1.5) while integer division by 1024 gives `1MB`. -/
theorem c9_counterexample :
    memLabel ⟨3584, 2048⟩ = "2MB" ∧
    toString ((3584 - 2048 : ℤ) / 1024) ++ "MB" = "1MB" ∧
    memLabel ⟨3584, 2048⟩ ≠ toString ((3584 - 2048 : ℤ) / 1024) ++ "MB" := by
  have h1 : memLabel ⟨3584, 2048⟩ = "2MB" := by
    norm_num [memLabel, jround]; rfl
  have h2 : toString ((3584 - 2048 : ℤ) / 1024) ++ "MB" = "1MB" := by decide
  refine ⟨h1, h2, ?_⟩
  rw [h1, h2]
  decide

/-- Claim C9 (amended): the memory percentage is
`round(100 * (total - available) / total)` (Scenario D gives 75) and
depends on no previous sample; the used-memory label formats
`(total - available) / 1024` using **round-half-up**, not integer
division. -/
theorem c9_amended :
    (∀ m : MemInfo, memPct m = jround (100 * ((m.total_kb - m.available_kb : ℤ) : ℚ) /
      ((m.total_kb : ℤ) : ℚ))) ∧
    memPct ⟨8000000, 2000000⟩ = 75 ∧
    (∀ m : MemInfo, memLabel m =
      toString (⌊((m.total_kb - m.available_kb : ℤ) : ℚ) / 1024 + 1/2⌋) ++ "MB") ∧
    (∀ (v1 v2 : MemView) (m : MemInfo),
      (memApply v1 (some m)).currentMem = (memApply v2 (some m)).currentMem ∧
      (memApply v1 (some m)).memStr = (memApply v2 (some m)).memStr) := by
  refine ⟨?_, ?_, ?_, ?_⟩
  · intro m
    unfold memPct
    congr 1
    ring
  · norm_num [memPct, jround]
  · intro m
    rfl
  · intro v1 v2 m
    exact ⟨rfl, rfl⟩

/-- Claim C10: the memory derivation divides by `total_kb` with no guard:
the checked percentage is a defined number exactly when `total_kb ≠ 0`,
yet the memory block overwrites the display for **every** `Ok` reading
(no error branch, no retained-prior-value fallback) — unlike the
aggregate / per-core CPU paths, which retain or zero the display without
dividing when the delta is non-positive, and the FPS path, which never
divides by a non-positive elapsed time. -/
theorem c10_unguarded :
    (∀ m : MemInfo, (memPctChecked m).isSome ↔ m.total_kb ≠ 0) ∧
    (∀ (v : MemView) (m : MemInfo), (memApply v (some m)).currentMem = memPct m) ∧
    (∀ (v : MemView) (m : MemInfo), (memApply v (some m)).memStr = memLabel m) ∧
    (∀ (p c : CpuTimes) (old : ℤ), ticksTotal c - ticksTotal p ≤ 0 →
      cpuPctUpdate p c old = old) ∧
    (∀ p c : CpuTimes, ticksTotal c - ticksTotal p ≤ 0 → corePctVal p c = 0) ∧
    (∀ (old : ℤ) (lf f : FpsInfo), f.timestamp_ms - lf.timestamp_ms ≤ 0 →
      fpsVal old (some lf) f = 0 ∨ fpsVal old (some lf) f = old) := by
  refine ⟨?_, ?_, ?_, ?_, ?_, ?_⟩
  · intro m
    simp only [memPctChecked, checkedDiv]
    split
    next h =>
      have hz : m.total_kb = 0 := by exact_mod_cast h
      simp [hz]
    next h =>
      have hz : m.total_kb ≠ 0 := fun hz => h (by exact_mod_cast hz)
      simp [hz]
  · intro v m
    rfl
  · intro v m
    rfl
  · intro p c old h
    unfold cpuPctUpdate
    rw [if_neg (by omega)]
  · intro p c h
    unfold corePctVal
    rw [if_neg (by omega)]
  · intro old lf f ht
    simp only [fpsVal]
    split
    · exact Or.inr (by rw [if_neg (by omega)])
    · split
      · exact Or.inl rfl
      · exact Or.inr rfl

/-- Claim C10, witness: a healthy reading is defined, and the guarded CPU
path retains the display on a zero delta. -/
theorem c10_witness :
    (memPctChecked ⟨8000000, 2000000⟩).isSome ∧ cpuPctUpdate tSame tSame 7 = 7 :=
  ⟨(c10_unguarded.1 ⟨8000000, 2000000⟩).mpr (by decide),
    c10_unguarded.2.2.2.1 tSame tSame 7 (by decide)⟩

end Kira
